import Mathlib

/-!
Verification of the nmm-rust installation-ownership ledger core.

This file shallowly embeds the data model and operations of the
`nmm-core` and `nmm-install-log` crates and proves the specified
properties about them:

* case-insensitive `IniEdit` identity (`install_log.rs`),
* the `ModInfo::parse_version` heuristic and `ModInfo::update_from`
  field merge (`mod_info.rs`),
* the versioned schema manager `schema::apply` (`schema.rs`),
* the relational constraints of the version-1 DDL (foreign keys with
  cascade delete, NOCASE collation),
* the ownership-stack engine of the `InstallLog` contract.
-/

namespace NmmRust

/-! ## ASCII case folding (models `str::to_ascii_lowercase` /
`eq_ignore_ascii_case` from the Rust standard library) -/

/-- Lowercase a single character exactly as `u8::to_ascii_lowercase`:
characters in `A..=Z` are shifted by 32, all others are unchanged. -/
def asciiLowerChar (c : Char) : Char :=
  if 'A' ≤ c ∧ c ≤ 'Z' then Char.ofNat (c.toNat + 32) else c

/-- Models `str::to_ascii_lowercase`. -/
def asciiLower (s : String) : String :=
  String.mk (s.data.map asciiLowerChar)

/-- Models `str::eq_ignore_ascii_case`. -/
def eqIgnoreAsciiCase (a b : String) : Bool :=
  asciiLower a == asciiLower b

/-- Lexicographic comparison of character lists by code point.  For the
strings produced here this coincides with Rust's `str::cmp`
(lexicographic on UTF-8 bytes), since UTF-8 byte order agrees with code
point order. -/
def compareChars : List Char → List Char → Ordering
  | [], [] => Ordering.eq
  | [], _ :: _ => Ordering.lt
  | _ :: _, [] => Ordering.gt
  | a :: as, b :: bs =>
    if a.toNat < b.toNat then Ordering.lt
    else if b.toNat < a.toNat then Ordering.gt
    else compareChars as bs

/-- Models `String::cmp` on Rust strings. -/
def compareStr (a b : String) : Ordering :=
  compareChars a.data b.data

theorem compareChars_self (l : List Char) : compareChars l l = Ordering.eq := by
  induction l with
  | nil => rfl
  | cons a as ih => simp [compareChars, ih]

theorem compareStr_self (s : String) : compareStr s s = Ordering.eq :=
  compareChars_self s.data

/-! ## `IniEdit` (src/crates/nmm-core/src/install_log.rs) -/

/-- A single INI file edit coordinate (file, section, key), as the
`IniEdit` struct.  The `section` field is called `sect` here because
`section` is a Lean keyword. -/
structure IniEdit where
  file : String
  sect : String
  key : String
deriving Repr, DecidableEq

namespace IniEdit

/-- Models `impl PartialEq for IniEdit`: field-wise
`eq_ignore_ascii_case`. -/
def beqIni (a b : IniEdit) : Bool :=
  eqIgnoreAsciiCase a.file b.file
    && eqIgnoreAsciiCase a.sect b.sect
    && eqIgnoreAsciiCase a.key b.key

/-- Models `impl Hash for IniEdit`: the data fed to the hasher is the
three ASCII-lowercased fields in order; two edits receive identical
hashes exactly when these feeds coincide. -/
def hashInput (a : IniEdit) : String × String × String :=
  (asciiLower a.file, asciiLower a.sect, asciiLower a.key)

/-- Models `impl Ord for IniEdit`: compare the ASCII-lowercased `file`
fields, return early if unequal, then `section`, then `key`. -/
def cmp (a b : IniEdit) : Ordering :=
  let fileCmp := compareStr (asciiLower a.file) (asciiLower b.file)
  if fileCmp ≠ Ordering.eq then fileCmp
  else
    let sectionCmp := compareStr (asciiLower a.sect) (asciiLower b.sect)
    if sectionCmp ≠ Ordering.eq then sectionCmp
    else compareStr (asciiLower a.key) (asciiLower b.key)

end IniEdit

/-! ## `ModInfo` (src/crates/nmm-core/src/mod_info.rs) -/

/-- A parsed semantic version, as produced by `ModInfo::parse_version`.
Models `semver::Version` restricted to plain numeric versions: the
strings `parse_version` hands to `semver::Version::parse` consist of
digits and dots only, so prerelease and build metadata never occur. -/
structure SemVer where
  major : Nat
  minor : Nat
  patch : Nat
deriving Repr, DecidableEq

/-- Mod metadata, as the `ModInfo` struct.  Timestamps are modelled as
integers, URLs and binary blobs as strings and byte lists; only
presence/absence and equality of these fields matter to the verified
operations. -/
structure ModInfo where
  id : Option String := none
  download_id : Option String := none
  name : String := ""
  file_name : String := ""
  version : String := ""
  machine_version : Option SemVer := none
  author : Option String := none
  description : Option String := none
  category_id : Option Int := none
  custom_category_id : Option Int := none
  website : Option String := none
  download_date : Option Int := none
  install_date : Option Int := none
  is_endorsed : Option Bool := none
  load_order : Option Int := none
  last_known_version : Option String := none
  screenshot : Option (List Nat) := none
  update_warning_enabled : Bool := false
  update_checks_enabled : Bool := false
  new_load_order : Option Int := none
deriving Repr, DecidableEq

namespace ModInfo

/-- The character filter of `parse_version`: keep digits and dots.
Rust's `char::is_numeric` is modelled by `Char.isDigit`; the two agree
on all ASCII characters, and the theorems below quantify over ASCII
input only. -/
def isVersionChar (c : Char) : Bool :=
  c.isDigit || c == '.'

/-- Models `str::trim_end_matches('.')`: drop all trailing dots. -/
def trimEndDots (l : List Char) : List Char :=
  (l.reverse.dropWhile (fun c => c == '.')).reverse

/-- Models `str::split('.')` on a character list. -/
def splitDot : List Char → List (List Char)
  | [] => [[]]
  | c :: rest =>
    if c = '.' then [] :: splitDot rest
    else
      match splitDot rest with
      | [] => [[c]]
      | p :: ps => (c :: p) :: ps

/-- Numeric value of a digit string (most significant digit first). -/
def natOfDigits (l : List Char) : Nat :=
  l.foldl (fun acc c => acc * 10 + (c.toNat - 48)) 0

/-- A valid `semver` numeric identifier: nonempty, all digits, no
leading zero (unless the identifier is exactly `0`), and fitting in a
`u64`. -/
def validNumericIdent (p : List Char) : Bool :=
  !p.isEmpty && p.all Char.isDigit
    && (p.length == 1 || p.head? != some '0')
    && natOfDigits p < 2 ^ 64

/-- Models `semver::Version::parse` (external `semver` crate) on the
strings `parse_version` builds: exactly three dot-separated numeric
identifiers, each without leading zeros and fitting in a `u64`; any
other shape is a parse error. -/
def semverParse (parts : List (List Char)) : Option SemVer :=
  match parts with
  | [a, b, c] =>
    if validNumericIdent a && validNumericIdent b && validNumericIdent c then
      some ⟨natOfDigits a, natOfDigits b, natOfDigits c⟩
    else none
  | _ => none

/-- Models `ModInfo::parse_version`: filter to digits and dots, reject
an empty result, trim trailing dots, prefix `0` before a leading dot,
split on dots discarding empty parts (collapsing dot runs), pad to
three components with zeros, and hand the result to `semver`. -/
def parse_version (version_str : String) : Option SemVer :=
  let cleaned := version_str.data.filter isVersionChar
  if cleaned.isEmpty then none
  else
    let cleaned := trimEndDots cleaned
    let cleaned := if cleaned.head? = some '.' then '0' :: cleaned else cleaned
    let parts := (splitDot cleaned).filter (fun p => !p.isEmpty)
    if parts.isEmpty then none
    else
      let normalized :=
        match parts with
        | [a] => [a, ['0'], ['0']]
        | [a, b] => [a, b, ['0']]
        | _ => parts
      semverParse normalized

/-- Models `ModInfo::update_from(&mut self, other, overwrite_all)` as a
pure function returning the updated value.  Field by field, exactly as
the `update_option!` / `update_string!` / `update_bool!` macros expand:
optional fields copy when `overwrite_all` or the destination is `None`;
string fields copy when `overwrite_all` or the destination is empty;
boolean fields copy only when `overwrite_all`. -/
def update_from (self other : ModInfo) (overwrite_all : Bool) : ModInfo :=
  { id := if overwrite_all || self.id.isNone then other.id else self.id
    download_id :=
      if overwrite_all || self.download_id.isNone then other.download_id
      else self.download_id
    name := if overwrite_all || self.name.isEmpty then other.name else self.name
    file_name :=
      if overwrite_all || self.file_name.isEmpty then other.file_name
      else self.file_name
    version :=
      if overwrite_all || self.version.isEmpty then other.version
      else self.version
    machine_version :=
      if overwrite_all || self.machine_version.isNone then other.machine_version
      else self.machine_version
    last_known_version :=
      if overwrite_all || self.last_known_version.isNone then other.last_known_version
      else self.last_known_version
    author := if overwrite_all || self.author.isNone then other.author else self.author
    description :=
      if overwrite_all || self.description.isNone then other.description
      else self.description
    category_id :=
      if overwrite_all || self.category_id.isNone then other.category_id
      else self.category_id
    custom_category_id :=
      if overwrite_all || self.custom_category_id.isNone then other.custom_category_id
      else self.custom_category_id
    website := if overwrite_all || self.website.isNone then other.website else self.website
    download_date :=
      if overwrite_all || self.download_date.isNone then other.download_date
      else self.download_date
    install_date :=
      if overwrite_all || self.install_date.isNone then other.install_date
      else self.install_date
    is_endorsed :=
      if overwrite_all || self.is_endorsed.isNone then other.is_endorsed
      else self.is_endorsed
    screenshot :=
      if overwrite_all || self.screenshot.isNone then other.screenshot
      else self.screenshot
    update_warning_enabled :=
      if overwrite_all then other.update_warning_enabled
      else self.update_warning_enabled
    update_checks_enabled :=
      if overwrite_all then other.update_checks_enabled
      else self.update_checks_enabled
    load_order :=
      if overwrite_all || self.load_order.isNone then other.load_order
      else self.load_order
    new_load_order :=
      if overwrite_all || self.new_load_order.isNone then other.new_load_order
      else self.new_load_order }

end ModInfo

/-! ## Schema manager (src/crates/nmm-install-log/src/schema.rs)

The store is modelled at the granularity `schema.rs` observes and
mutates: existence of each table and index created by `DDL_V1`, and the
rows of `schema_meta` (an association list from `key` to `int_value`,
where `none` stands for a NULL or otherwise unreadable `int_value`).
`CREATE TABLE IF NOT EXISTS` / `CREATE INDEX IF NOT EXISTS` only flip
existence flags, and `INSERT OR IGNORE` under the `key` primary key
inserts only when the key is absent — the SQLite semantics the DDL
comments rely on. -/

namespace Schema

/-- Models `InstallLogError` from `src/crates/nmm-install-log/src/error.rs`.
The `db` constructor stands for a wrapped `rusqlite::Error`; the model
has no I/O, so it is never produced. -/
inductive InstallLogError where
  | db : InstallLogError
  | unsupportedSchemaVersion (found max : Int) : InstallLogError
deriving Repr, DecidableEq

/-- The schema version produced by this crate (`CURRENT_VERSION`). -/
def CURRENT_VERSION : Int := 1

/-- The persistent store as observed by `schema.rs`: `schemaMeta` is
`none` while the `schema_meta` table does not exist, otherwise the list
of `(key, int_value)` rows; the booleans record existence of the other
tables and the six indices of `DDL_V1`. -/
structure Store where
  schemaMeta : Option (List (String × Option Int)) := none
  modsTable : Bool := false
  fileOwnersTable : Bool := false
  iniEditsTable : Bool := false
  gsvEditsTable : Bool := false
  idxFileOwnersByPath : Bool := false
  idxFileOwnersByMod : Bool := false
  idxIniEditsByKey : Bool := false
  idxIniEditsByMod : Bool := false
  idxGsvEditsByKey : Bool := false
  idxGsvEditsByMod : Bool := false
deriving Repr, DecidableEq

/-- Models `INSERT OR IGNORE INTO schema_meta (key, int_value) VALUES
(k, v)`: a no-op when a row with primary key `k` exists, an append
otherwise. -/
def insertMetaRow (rows : List (String × Option Int)) (k : String) (v : Int) :
    List (String × Option Int) :=
  match rows.lookup k with
  | some _ => rows
  | none => rows ++ [(k, some v)]

/-- Models `conn.execute_batch(DDL_V1)`: create every table and index
if it does not exist.  Creating `schema_meta` when absent yields an
empty row set; existing rows are untouched. -/
def execDdlV1 (s : Store) : Store :=
  { schemaMeta := some (s.schemaMeta.getD [])
    modsTable := true
    fileOwnersTable := true
    iniEditsTable := true
    gsvEditsTable := true
    idxFileOwnersByPath := true
    idxFileOwnersByMod := true
    idxIniEditsByKey := true
    idxIniEditsByMod := true
    idxGsvEditsByKey := true
    idxGsvEditsByMod := true }

/-- Models `conn.execute_batch(SEED_V1)`: insert-or-ignore the
`schema_version = 1` and `install_order_seq = 0` rows.  `SEED_V1` is
only executed after `DDL_V1`, so `schema_meta` exists. -/
def execSeedV1 (s : Store) : Store :=
  { s with
    schemaMeta :=
      some (insertMetaRow
        (insertMetaRow (s.schemaMeta.getD []) "schema_version" 1)
        "install_order_seq" 0) }

/-- Models `schema::read_version`: `0` when `schema_meta` does not
exist; otherwise the `int_value` of the `schema_version` row, with any
query failure (missing row, NULL/unreadable value) mapped to `0` by
`unwrap_or(0)`. -/
def read_version (s : Store) : Int :=
  match s.schemaMeta with
  | none => 0
  | some rows =>
    match rows.lookup "schema_version" with
    | some (some v) => v
    | _ => 0

/-- Models `schema::apply`: read the stored version, fail on a version
newer than `CURRENT_VERSION`, return at once when already current, and
otherwise run the guarded `DDL_V1` and `SEED_V1` batches.  The returned
pair carries the `Result` together with the store the connection holds
afterwards. -/
def apply (s : Store) : Except InstallLogError Unit × Store :=
  let current := read_version s
  if current > CURRENT_VERSION then
    (Except.error (InstallLogError.unsupportedSchemaVersion current CURRENT_VERSION), s)
  else if current = CURRENT_VERSION then
    (Except.ok (), s)
  else
    let s := if current < 1 then execSeedV1 (execDdlV1 s) else s
    (Except.ok (), s)

/-- The stored `int_value` of a `schema_meta` row: `none` when the
table or the row is absent, `some v` for the row's value (`v = none`
for a NULL value). -/
def metaValue (s : Store) (k : String) : Option (Option Int) :=
  match s.schemaMeta with
  | none => none
  | some rows => rows.lookup k

end Schema

/-! ## Relational semantics of `DDL_V1`
(src/crates/nmm-install-log/src/schema.rs, exercised with
`PRAGMA foreign_keys = ON` as in tests/schema_tests.rs)

Row-level model of the four data tables: inserts enforce the declared
primary keys (with `COLLATE NOCASE` on resource-key columns, which in
SQLite folds ASCII case) and the `mod_key` foreign keys; deleting from
`mods` cascades per `ON DELETE CASCADE`. -/

namespace Db

/-- A row of the `mods` table. -/
structure ModRow where
  mod_key : String
  archive_path : String := ""
  name : String := ""
  version : String := ""
  machine_version : Option String := none
  install_date : Option String := none
deriving Repr, DecidableEq

/-- A row of the `file_owners` table. -/
structure FileOwnerRow where
  file_path : String
  mod_key : String
  install_order : Int
deriving Repr, DecidableEq

/-- A row of the `ini_edits` table (`sect` models the `section`
column, a Lean keyword). -/
structure IniEditRow where
  ini_file : String
  sect : String
  key : String
  mod_key : String
  value : Option String := none
  install_order : Int
deriving Repr, DecidableEq

/-- A row of the `gsv_edits` table. -/
structure GsvEditRow where
  gsv_key : String
  mod_key : String
  blob_value : Option (List Nat) := none
  install_order : Int
deriving Repr, DecidableEq

/-- The four data tables created by `DDL_V1`. -/
structure DbState where
  mods : List ModRow := []
  file_owners : List FileOwnerRow := []
  ini_edits : List IniEditRow := []
  gsv_edits : List GsvEditRow := []
deriving Repr, DecidableEq

/-- A constraint violation rejecting an INSERT: a duplicate primary
key, or a `mod_key` absent from `mods` with foreign keys enforced. -/
inductive SqlError where
  | primaryKeyViolation : SqlError
  | foreignKeyViolation : SqlError
deriving Repr, DecidableEq

/-- Whether `mods` holds a row with the given key (`mod_key TEXT
PRIMARY KEY`, binary collation). -/
def modKeyExists (db : DbState) (k : String) : Bool :=
  db.mods.any (fun m => m.mod_key == k)

/-- INSERT INTO `mods`: rejected when the `mod_key` primary key is
taken. -/
def insertMod (db : DbState) (r : ModRow) : Except SqlError DbState :=
  if db.mods.any (fun m => m.mod_key == r.mod_key) then
    Except.error SqlError.primaryKeyViolation
  else Except.ok { db with mods := db.mods ++ [r] }

/-- INSERT INTO `file_owners`: the (`file_path` NOCASE, `mod_key`)
primary key must be free and the `mod_key` must reference `mods`. -/
def insertFileOwner (db : DbState) (r : FileOwnerRow) : Except SqlError DbState :=
  if db.file_owners.any (fun x =>
      eqIgnoreAsciiCase x.file_path r.file_path && x.mod_key == r.mod_key) then
    Except.error SqlError.primaryKeyViolation
  else if !modKeyExists db r.mod_key then
    Except.error SqlError.foreignKeyViolation
  else Except.ok { db with file_owners := db.file_owners ++ [r] }

/-- INSERT INTO `ini_edits`: the (`ini_file`, `section`, `key` — all
NOCASE — `mod_key`) primary key must be free and the `mod_key` must
reference `mods`. -/
def insertIniEdit (db : DbState) (r : IniEditRow) : Except SqlError DbState :=
  if db.ini_edits.any (fun x =>
      eqIgnoreAsciiCase x.ini_file r.ini_file
        && eqIgnoreAsciiCase x.sect r.sect
        && eqIgnoreAsciiCase x.key r.key
        && x.mod_key == r.mod_key) then
    Except.error SqlError.primaryKeyViolation
  else if !modKeyExists db r.mod_key then
    Except.error SqlError.foreignKeyViolation
  else Except.ok { db with ini_edits := db.ini_edits ++ [r] }

/-- INSERT INTO `gsv_edits`: the (`gsv_key` NOCASE, `mod_key`) primary
key must be free and the `mod_key` must reference `mods`. -/
def insertGsvEdit (db : DbState) (r : GsvEditRow) : Except SqlError DbState :=
  if db.gsv_edits.any (fun x =>
      eqIgnoreAsciiCase x.gsv_key r.gsv_key && x.mod_key == r.mod_key) then
    Except.error SqlError.primaryKeyViolation
  else if !modKeyExists db r.mod_key then
    Except.error SqlError.foreignKeyViolation
  else Except.ok { db with gsv_edits := db.gsv_edits ++ [r] }

/-- DELETE FROM `mods` WHERE `mod_key` = k, with the three `ON DELETE
CASCADE` foreign keys: the matching mod row and every ownership row it
anchors disappear in the same statement. -/
def deleteMod (db : DbState) (k : String) : DbState :=
  { mods := db.mods.filter (fun m => !(m.mod_key == k))
    file_owners := db.file_owners.filter (fun r => !(r.mod_key == k))
    ini_edits := db.ini_edits.filter (fun r => !(r.mod_key == k))
    gsv_edits := db.gsv_edits.filter (fun r => !(r.mod_key == k)) }

/-- The foreign-key invariant of `DDL_V1`: every ownership row in each
of the three ownership tables references a `mod_key` present in
`mods`. -/
def fkOk (db : DbState) : Prop :=
  (∀ r ∈ db.file_owners, ∃ m ∈ db.mods, m.mod_key = r.mod_key)
    ∧ (∀ r ∈ db.ini_edits, ∃ m ∈ db.mods, m.mod_key = r.mod_key)
    ∧ (∀ r ∈ db.gsv_edits, ∃ m ∈ db.mods, m.mod_key = r.mod_key)

instance (db : DbState) : Decidable (fkOk db) := by
  unfold fkOk; infer_instance

end Db

/-! ## Ownership stack engine (the `InstallLog` contract,
src/crates/nmm-core/src/install_log.rs)

The repository defines `InstallLog` only as a trait; no implementation
is under src/.  The operations below are therefore modelled from the
spec (section 4.2, "Ownership Stack Engine") and from the trait's
documented error contract, against the schema of `DDL_V1`. -/

/-- Constant representing the special mod key used to store original
file values, from src/crates/nmm-core/src/install_log.rs. -/
def ORIGINAL_VALUES_KEY : String := "<<ORIGINAL_VALUES>>"

namespace Ledger

/-- A file ownership claim: (`file_path`, `mod_key`, `sequence`). -/
structure FileClaim where
  file_path : String
  mod_key : String
  seq : Nat
deriving Repr, DecidableEq

/-- An INI ownership claim: coordinate, owner, value, `sequence`. -/
structure IniClaim where
  edit : IniEdit
  mod_key : String
  value : String
  seq : Nat
deriving Repr, DecidableEq

/-- A game-specific-value ownership claim. -/
structure GsvClaim where
  gsv_key : String
  mod_key : String
  value : List Nat
  seq : Nat
deriving Repr, DecidableEq

/-- Errors of the ledger operations, after `InstallLogError` in
src/crates/nmm-core/src/error.rs; `duplicateClaim` stands for the
storage-layer primary-key rejection of a second claim by the same
owner on the same resource. -/
inductive LedgerError where
  | modNotFound (key : String)
  | alreadyRegistered (key : String)
  | entryNotFound (what : String)
  | duplicateClaim (what : String)
deriving Repr, DecidableEq

/-- Modelled from the spec: the ledger state — the set of registered
mod keys, the ownership claims of the three resource kinds, and the
shared monotonic `sequence_counter` (seeded to 0). -/
structure LedgerState where
  mods : List String := []
  fileClaims : List FileClaim := []
  iniClaims : List IniClaim := []
  gsvClaims : List GsvClaim := []
  seqCounter : Nat := 0
deriving Repr, DecidableEq

/-- Modelled from the spec: `add_mod(key, info)` fails with
`AlreadyRegistered` when the key exists, otherwise inserts.  Metadata
is irrelevant to the verified properties and omitted. -/
def add_mod (s : LedgerState) (k : String) : Except LedgerError LedgerState :=
  if s.mods.contains k then Except.error (LedgerError.alreadyRegistered k)
  else Except.ok { s with mods := s.mods ++ [k] }

/-- Whether an owner already claims a file path (path compared
case-insensitively per `COLLATE NOCASE`, owner exactly). -/
def hasFileClaim (s : LedgerState) (path owner : String) : Bool :=
  s.fileClaims.any (fun c =>
    eqIgnoreAsciiCase c.file_path path && c.mod_key == owner)

/-- Modelled from the spec: `add_data_file(mod_key, file_path)`
validates that the mod is registered (else `ModNotFound`), rejects a
duplicate (`file_path`, `mod_key`) claim, and otherwise records the
claim under the next value of the shared sequence counter. -/
def add_data_file (s : LedgerState) (k path : String) : Except LedgerError LedgerState :=
  if !s.mods.contains k then Except.error (LedgerError.modNotFound k)
  else if hasFileClaim s path k then Except.error (LedgerError.duplicateClaim path)
  else
    Except.ok
      { s with
        fileClaims := s.fileClaims ++ [⟨path, k, s.seqCounter + 1⟩]
        seqCounter := s.seqCounter + 1 }

/-- Modelled from the spec: `remove_data_file(mod_key, file_path)`
fails with `ModNotFound` for an unregistered mod and `EntryNotFound`
when the pair has no claim; otherwise deletes exactly that claim. -/
def remove_data_file (s : LedgerState) (k path : String) : Except LedgerError LedgerState :=
  if !s.mods.contains k then Except.error (LedgerError.modNotFound k)
  else if !hasFileClaim s path k then Except.error (LedgerError.entryNotFound path)
  else
    Except.ok
      { s with
        fileClaims := s.fileClaims.filter (fun c =>
          !(eqIgnoreAsciiCase c.file_path path && c.mod_key == k)) }

/-- The claims on one file path (case-insensitive match). -/
def claimsOn (s : LedgerState) (path : String) : List FileClaim :=
  s.fileClaims.filter (fun c => eqIgnoreAsciiCase c.file_path path)

/-- Insert into a list kept sorted by strictly descending `seq`. -/
def insertDesc (c : FileClaim) : List FileClaim → List FileClaim
  | [] => [c]
  | d :: ds => if d.seq > c.seq then d :: insertDesc c ds else c :: d :: ds

/-- Sort claims by descending `seq` (the `ORDER BY install_order DESC`
of the owner queries; sequences are unique so ties do not arise). -/
def sortDesc : List FileClaim → List FileClaim
  | [] => []
  | c :: cs => insertDesc c (sortDesc cs)

/-- Modelled from the spec: `get_current_file_owner(file_path)` — the
owner whose claim on the path has the highest sequence, or none. -/
def get_current_file_owner (s : LedgerState) (path : String) : Option String :=
  (sortDesc (claimsOn s path)).head?.map FileClaim.mod_key

/-- Modelled from the spec: `get_previous_file_owner(file_path)` — the
owner with the second-highest sequence, or none if fewer than two
claims exist. -/
def get_previous_file_owner (s : LedgerState) (path : String) : Option String :=
  ((sortDesc (claimsOn s path)).drop 1).head?.map FileClaim.mod_key

/-- Modelled from the spec: `log_original_data_file(file_path)` inserts
a claim under the sentinel `ORIGINAL_VALUES_KEY` owner without
requiring the sentinel to be registered as a mod; a repeated call for
the same path is the storage-layer duplicate of the same pair. -/
def log_original_data_file (s : LedgerState) (path : String) : Except LedgerError LedgerState :=
  if hasFileClaim s path ORIGINAL_VALUES_KEY then
    Except.error (LedgerError.duplicateClaim path)
  else
    Except.ok
      { s with
        fileClaims := s.fileClaims ++ [⟨path, ORIGINAL_VALUES_KEY, s.seqCounter + 1⟩]
        seqCounter := s.seqCounter + 1 }

/-- Whether an owner already claims an INI coordinate (triple compared
case-insensitively, owner exactly). -/
def hasIniClaim (s : LedgerState) (edit : IniEdit) (owner : String) : Bool :=
  s.iniClaims.any (fun c => IniEdit.beqIni c.edit edit && c.mod_key == owner)

/-- Modelled from the spec: `log_original_ini_value(edit, value)` —
the INI analogue of `log_original_data_file`. -/
def log_original_ini_value (s : LedgerState) (edit : IniEdit) (value : String) :
    Except LedgerError LedgerState :=
  if hasIniClaim s edit ORIGINAL_VALUES_KEY then
    Except.error (LedgerError.duplicateClaim edit.file)
  else
    Except.ok
      { s with
        iniClaims := s.iniClaims ++ [⟨edit, ORIGINAL_VALUES_KEY, value, s.seqCounter + 1⟩]
        seqCounter := s.seqCounter + 1 }

/-- Whether an owner already claims a game-specific value key. -/
def hasGsvClaim (s : LedgerState) (key owner : String) : Bool :=
  s.gsvClaims.any (fun c => eqIgnoreAsciiCase c.gsv_key key && c.mod_key == owner)

/-- Modelled from the spec: `log_original_gsv_value(gsv_key, value)` —
the game-specific-value analogue of `log_original_data_file`. -/
def log_original_gsv_value (s : LedgerState) (key : String) (value : List Nat) :
    Except LedgerError LedgerState :=
  if hasGsvClaim s key ORIGINAL_VALUES_KEY then
    Except.error (LedgerError.duplicateClaim key)
  else
    Except.ok
      { s with
        gsvClaims := s.gsvClaims ++ [⟨key, ORIGINAL_VALUES_KEY, value, s.seqCounter + 1⟩]
        seqCounter := s.seqCounter + 1 }

end Ledger

/-! ## Theorems -/

/-- Helper: an `if`-selection on `Option.isNone` equals the
`Prop`-level selection on `= none`. -/
theorem if_isNone_eq {α : Type} [DecidableEq α] (x y : Option α) :
    (if x.isNone then y else x) = (if x = none then y else x) := by
  cases x <;> simp

/-- Helper: an `if`-selection on `String.isEmpty` equals the
`Prop`-level selection on `= ""`. -/
theorem if_isEmpty_eq (x y : String) :
    (if x.isEmpty then y else x) = (if x = "" then y else x) := by
  by_cases h : x = "" <;> simp [h, String.isEmpty_iff]

/-- C7: `IniEdit` values whose `file`, `section` and `key` fields
differ only by ASCII case are equal under `PartialEq`, feed identical
data to the hasher, and compare as `Ordering::Equal`; and `Ord::cmp`
is exactly the case-folded field-by-field lexicographic comparison in
declared field order — `file`, then `section`, then `key`. -/
theorem iniEdit_case_insensitive_identity (a b : IniEdit) :
    (asciiLower a.file = asciiLower b.file →
      asciiLower a.sect = asciiLower b.sect →
      asciiLower a.key = asciiLower b.key →
      IniEdit.beqIni a b = true
        ∧ IniEdit.hashInput a = IniEdit.hashInput b
        ∧ IniEdit.cmp a b = Ordering.eq)
    ∧ IniEdit.cmp a b =
        ((compareStr (asciiLower a.file) (asciiLower b.file)).then
          ((compareStr (asciiLower a.sect) (asciiLower b.sect)).then
            (compareStr (asciiLower a.key) (asciiLower b.key)))) := by
  constructor
  · intro h1 h2 h3
    refine ⟨?_, ?_, ?_⟩
    · simp [IniEdit.beqIni, eqIgnoreAsciiCase, h1, h2, h3]
    · simp [IniEdit.hashInput, h1, h2, h3]
    · simp [IniEdit.cmp, h1, h2, h3, compareStr_self]
  · unfold IniEdit.cmp
    rcases hf : compareStr (asciiLower a.file) (asciiLower b.file) <;>
      rcases hs : compareStr (asciiLower a.sect) (asciiLower b.sect) <;>
        simp [Ordering.then]

/-- Witness for C7 at the case-variant pair from the repository's own
test `ini_edit_case_insensitive_equality`. -/
theorem iniEdit_case_insensitive_identity_witness :
    IniEdit.beqIni ⟨"Skyrim.ini", "Display", "bFullScreen"⟩
        ⟨"skyrim.ini", "DISPLAY", "bfullscreen"⟩ = true
      ∧ IniEdit.hashInput ⟨"Skyrim.ini", "Display", "bFullScreen"⟩
          = IniEdit.hashInput ⟨"skyrim.ini", "DISPLAY", "bfullscreen"⟩
      ∧ IniEdit.cmp ⟨"Skyrim.ini", "Display", "bFullScreen"⟩
          ⟨"skyrim.ini", "DISPLAY", "bfullscreen"⟩ = Ordering.eq :=
  (iniEdit_case_insensitive_identity
      ⟨"Skyrim.ini", "Display", "bFullScreen"⟩
      ⟨"skyrim.ini", "DISPLAY", "bfullscreen"⟩).1
    (by decide) (by decide) (by decide)

/-- C8: `ModInfo::parse_version` returns `None` for every (ASCII)
input whose digits-and-dots cleaned form is empty, and on the
documented examples it strips prefixes, collapses dot runs, turns a
leading dot into a leading zero, and zero-pads missing components:
`"1.2.3" ↦ 1.2.3`, `"v1.2" ↦ 1.2.0`, `"5" ↦ 5.0.0`, `".5" ↦ 0.5.0`,
`"invalid" ↦ None`, `"1..2" ↦ 1.2.0`, `"1.2." ↦ 1.2.0`. -/
theorem parse_version_spec (s : String)
    (hAscii : ∀ c ∈ s.data, c.toNat < 128)
    (hCleaned : s.data.filter ModInfo.isVersionChar = []) :
    ModInfo.parse_version s = none
      ∧ ModInfo.parse_version "1.2.3" = some ⟨1, 2, 3⟩
      ∧ ModInfo.parse_version "v1.2" = some ⟨1, 2, 0⟩
      ∧ ModInfo.parse_version "5" = some ⟨5, 0, 0⟩
      ∧ ModInfo.parse_version ".5" = some ⟨0, 5, 0⟩
      ∧ ModInfo.parse_version "invalid" = none
      ∧ ModInfo.parse_version "1..2" = some ⟨1, 2, 0⟩
      ∧ ModInfo.parse_version "1.2." = some ⟨1, 2, 0⟩ := by
  refine ⟨?_, by decide, by decide, by decide, by decide, by decide,
    by decide, by decide⟩
  unfold ModInfo.parse_version
  simp [hCleaned]

/-- Witness for C8 at the all-letters input of the repository's
`test_version_parsing_invalid`. -/
theorem parse_version_spec_witness : ModInfo.parse_version "abc" = none :=
  (parse_version_spec "abc" (by decide) (by decide)).1

/-- C9: `ModInfo::update_from(other, force)` copies each optional
field only when the destination is `None` and each string field only
when the destination is empty, unless `force` is set, in which case it
always copies; boolean flags copy only under `force`; every field
whose copy condition fails keeps its destination value. -/
theorem update_from_spec (s o : ModInfo) (f : Bool) :
    (s.update_from o f).id = (if f = true then o.id else if s.id = none then o.id else s.id)
      ∧ (s.update_from o f).download_id
          = (if f = true then o.download_id
             else if s.download_id = none then o.download_id else s.download_id)
      ∧ (s.update_from o f).name
          = (if f = true then o.name else if s.name = "" then o.name else s.name)
      ∧ (s.update_from o f).file_name
          = (if f = true then o.file_name
             else if s.file_name = "" then o.file_name else s.file_name)
      ∧ (s.update_from o f).version
          = (if f = true then o.version
             else if s.version = "" then o.version else s.version)
      ∧ (s.update_from o f).machine_version
          = (if f = true then o.machine_version
             else if s.machine_version = none then o.machine_version
             else s.machine_version)
      ∧ (s.update_from o f).author
          = (if f = true then o.author else if s.author = none then o.author else s.author)
      ∧ (s.update_from o f).description
          = (if f = true then o.description
             else if s.description = none then o.description else s.description)
      ∧ (s.update_from o f).category_id
          = (if f = true then o.category_id
             else if s.category_id = none then o.category_id else s.category_id)
      ∧ (s.update_from o f).custom_category_id
          = (if f = true then o.custom_category_id
             else if s.custom_category_id = none then o.custom_category_id
             else s.custom_category_id)
      ∧ (s.update_from o f).website
          = (if f = true then o.website
             else if s.website = none then o.website else s.website)
      ∧ (s.update_from o f).download_date
          = (if f = true then o.download_date
             else if s.download_date = none then o.download_date else s.download_date)
      ∧ (s.update_from o f).install_date
          = (if f = true then o.install_date
             else if s.install_date = none then o.install_date else s.install_date)
      ∧ (s.update_from o f).is_endorsed
          = (if f = true then o.is_endorsed
             else if s.is_endorsed = none then o.is_endorsed else s.is_endorsed)
      ∧ (s.update_from o f).load_order
          = (if f = true then o.load_order
             else if s.load_order = none then o.load_order else s.load_order)
      ∧ (s.update_from o f).last_known_version
          = (if f = true then o.last_known_version
             else if s.last_known_version = none then o.last_known_version
             else s.last_known_version)
      ∧ (s.update_from o f).screenshot
          = (if f = true then o.screenshot
             else if s.screenshot = none then o.screenshot else s.screenshot)
      ∧ (s.update_from o f).new_load_order
          = (if f = true then o.new_load_order
             else if s.new_load_order = none then o.new_load_order
             else s.new_load_order)
      ∧ (s.update_from o f).update_warning_enabled
          = (if f = true then o.update_warning_enabled else s.update_warning_enabled)
      ∧ (s.update_from o f).update_checks_enabled
          = (if f = true then o.update_checks_enabled else s.update_checks_enabled) := by
  cases f <;>
    simp [ModInfo.update_from, if_isNone_eq, if_isEmpty_eq]

namespace Schema

/-- Helper: association lookup distributes over append. -/
theorem lookup_append {β : Type} (l1 l2 : List (String × β)) (a : String) :
    (l1 ++ l2).lookup a =
      (match l1.lookup a with
       | some b => some b
       | none => l2.lookup a) := by
  induction l1 with
  | nil => simp
  | cons p t ih =>
    obtain ⟨k, v⟩ := p
    cases hk : a == k <;> simp [List.lookup, hk, ih]

/-- Helper: after `insertMetaRow rows k v`, the row for `k` holds its
old value if it existed, `some v` otherwise. -/
theorem lookup_insertMetaRow_self (rows : List (String × Option Int)) (k : String) (v : Int) :
    (insertMetaRow rows k v).lookup k = some ((rows.lookup k).getD (some v)) := by
  unfold insertMetaRow
  cases h : rows.lookup k with
  | some x => simp [h]
  | none => simp [h, lookup_append, List.lookup]

/-- Helper: `insertMetaRow rows k v` leaves rows for other keys
untouched. -/
theorem lookup_insertMetaRow_ne (rows : List (String × Option Int)) (k k' : String) (v : Int)
    (h : k' ≠ k) :
    (insertMetaRow rows k v).lookup k' = rows.lookup k' := by
  unfold insertMetaRow
  cases hk : rows.lookup k with
  | some x => rfl
  | none =>
    rw [lookup_append]
    cases h' : rows.lookup k' with
    | some b => rfl
    | none =>
      have hb : (k' == k) = false := beq_false_of_ne h
      simp [List.lookup, hb]

/-- Helper: the `schema_version` row after `SEED_V1`. -/
theorem seed_lookup_version (rows : List (String × Option Int)) :
    (insertMetaRow (insertMetaRow rows "schema_version" 1)
        "install_order_seq" 0).lookup "schema_version"
      = some ((rows.lookup "schema_version").getD (some 1)) := by
  rw [lookup_insertMetaRow_ne _ _ _ _ (by decide), lookup_insertMetaRow_self]

/-- Helper: the `install_order_seq` row after `SEED_V1`. -/
theorem seed_lookup_seq (rows : List (String × Option Int)) :
    (insertMetaRow (insertMetaRow rows "schema_version" 1)
        "install_order_seq" 0).lookup "install_order_seq"
      = some ((rows.lookup "install_order_seq").getD (some 0)) := by
  rw [lookup_insertMetaRow_self, lookup_insertMetaRow_ne _ _ _ _ (by decide)]

/-- Helper: the store after the migration branch of `apply`. -/
theorem migrated_schemaMeta (s : Store) :
    (execSeedV1 (execDdlV1 s)).schemaMeta
      = some (insertMetaRow (insertMetaRow (s.schemaMeta.getD [])
          "schema_version" 1) "install_order_seq" 0) := rfl

/-- Helper: `DDL_V1` is a no-op on the store the migration branch
produced: every table and index already exists. -/
theorem ddl_stable (s : Store) :
    execDdlV1 (execSeedV1 (execDdlV1 s)) = execSeedV1 (execDdlV1 s) := rfl

/-- Helper: `SEED_V1` is a no-op when both seed rows are present. -/
theorem seed_stable (t : Store) (rows : List (String × Option Int))
    (hMeta : t.schemaMeta = some rows)
    (hsv : (rows.lookup "schema_version").isSome = true)
    (hios : (rows.lookup "install_order_seq").isSome = true) :
    execSeedV1 t = t := by
  obtain ⟨x, hx⟩ := Option.isSome_iff_exists.mp hsv
  obtain ⟨y, hy⟩ := Option.isSome_iff_exists.mp hios
  unfold execSeedV1
  rw [hMeta]
  have h1 : insertMetaRow rows "schema_version" 1 = rows := by
    unfold insertMetaRow; rw [hx]
  have h2 : insertMetaRow rows "install_order_seq" 0 = rows := by
    unfold insertMetaRow; rw [hy]
  rw [Option.getD_some, h1, h2, ← hMeta]

/-- Helper: `read_version` once the `schema_meta` table exists. -/
theorem read_version_eq (t : Store) (rows : List (String × Option Int))
    (h : t.schemaMeta = some rows) :
    read_version t =
      (match rows.lookup "schema_version" with
       | some (some v) => v
       | _ => 0) := by
  unfold read_version
  rw [h]

/-- Helper: `metaValue` once the `schema_meta` table exists. -/
theorem metaValue_eq (t : Store) (rows : List (String × Option Int))
    (h : t.schemaMeta = some rows) (k : String) :
    metaValue t k = rows.lookup k := by
  unfold metaValue
  rw [h]

/-- Helper: the branch of `apply` taken when the stored version is
current. -/
theorem apply_of_read_version_eq (s : Store) (h : read_version s = CURRENT_VERSION) :
    apply s = (Except.ok (), s) := by
  unfold apply
  rw [h]
  simp [CURRENT_VERSION]

/-- Helper: the branch of `apply` taken when the stored version is
below current: run `DDL_V1` then `SEED_V1`. -/
theorem apply_of_read_version_lt (s : Store) (h : read_version s < CURRENT_VERSION) :
    apply s = (Except.ok (), execSeedV1 (execDdlV1 s)) := by
  unfold apply
  have h1 : ¬ read_version s > CURRENT_VERSION := by omega
  have h2 : ¬ read_version s = CURRENT_VERSION := by omega
  have h3 : read_version s < 1 := by
    have : CURRENT_VERSION = 1 := rfl
    omega
  simp [h1, h2, h3]

end Schema

/-- C3: when the stored `schema_version` meta value `v` exceeds
`CURRENT_VERSION`, `schema::apply` fails with
`UnsupportedSchemaVersion { found: v, max: CURRENT_VERSION }` and
leaves the store unmodified. -/
theorem apply_rejects_future_version (s : Schema.Store)
    (rows : List (String × Option Int)) (v : Int)
    (hMeta : s.schemaMeta = some rows)
    (hRow : rows.lookup "schema_version" = some (some v))
    (hGt : v > Schema.CURRENT_VERSION) :
    Schema.apply s =
      (Except.error (Schema.InstallLogError.unsupportedSchemaVersion v Schema.CURRENT_VERSION),
        s) := by
  have hrv : Schema.read_version s = v := by
    rw [Schema.read_version_eq s rows hMeta, hRow]
  unfold Schema.apply
  rw [hrv]
  simp [hGt]

/-- Witness for C3 at the store of the repository's test
`apply_rejects_future_schema_version` (stored version 9999). -/
theorem apply_rejects_future_version_witness :
    Schema.apply { schemaMeta := some [("schema_version", some 9999)] } =
      (Except.error
          (Schema.InstallLogError.unsupportedSchemaVersion 9999 Schema.CURRENT_VERSION),
        { schemaMeta := some [("schema_version", some 9999)] }) :=
  apply_rejects_future_version _ [("schema_version", some 9999)] 9999 rfl (by decide)
    (by decide)

/-- C4: `schema::apply` is idempotent — a second run on the store a
first run produced returns the same result and the same store, so N
successive runs observe the state of one run — and when the stored
`schema_version` already equals `CURRENT_VERSION`, `apply` succeeds
without modifying the store. -/
theorem apply_idempotent (s : Schema.Store) :
    Schema.apply ((Schema.apply s).2) = Schema.apply s
      ∧ (∀ rows, s.schemaMeta = some rows →
          rows.lookup "schema_version" = some (some Schema.CURRENT_VERSION) →
          Schema.apply s = (Except.ok (), s)) := by
  constructor
  · by_cases h1 : Schema.read_version s > Schema.CURRENT_VERSION
    · have happ : Schema.apply s =
          (Except.error (Schema.InstallLogError.unsupportedSchemaVersion
            (Schema.read_version s) Schema.CURRENT_VERSION), s) := by
        unfold Schema.apply
        simp [h1]
      rw [happ]
      exact happ
    · by_cases h2 : Schema.read_version s = Schema.CURRENT_VERSION
      · have happ := Schema.apply_of_read_version_eq s h2
        rw [happ]
        exact happ
      · have hlt : Schema.read_version s < Schema.CURRENT_VERSION := by omega
        have happ := Schema.apply_of_read_version_lt s hlt
        rw [happ]
        have hmeta := Schema.migrated_schemaMeta s
        cases hsv : (s.schemaMeta.getD []).lookup "schema_version" with
        | none =>
          have hrv : Schema.read_version (Schema.execSeedV1 (Schema.execDdlV1 s)) = 1 := by
            rw [Schema.read_version_eq _ _ hmeta, Schema.seed_lookup_version, hsv]
            rfl
          exact Schema.apply_of_read_version_eq _ hrv
        | some x =>
          have hrv : Schema.read_version (Schema.execSeedV1 (Schema.execDdlV1 s))
              = Schema.read_version s := by
            rw [Schema.read_version_eq _ _ hmeta, Schema.seed_lookup_version, hsv]
            cases hm : s.schemaMeta with
            | none => simp [hm] at hsv
            | some rows =>
              rw [hm] at hsv
              simp only [Option.getD_some] at hsv
              rw [Schema.read_version_eq s rows hm, hsv]
              rfl
          have hlt2 : Schema.read_version (Schema.execSeedV1 (Schema.execDdlV1 s))
              < Schema.CURRENT_VERSION := by rw [hrv]; exact hlt
          rw [Schema.apply_of_read_version_lt _ hlt2, Schema.ddl_stable,
            Schema.seed_stable _ _ hmeta (by rw [Schema.seed_lookup_version]; rfl)
              (by rw [Schema.seed_lookup_seq]; rfl)]
  · intro rows hMeta hRow
    apply Schema.apply_of_read_version_eq
    rw [Schema.read_version_eq s rows hMeta, hRow]

/-- Witness for C4 at a store already stamped with the current
version. -/
theorem apply_idempotent_witness :
    Schema.apply { schemaMeta := some [("schema_version", some Schema.CURRENT_VERSION),
        ("install_order_seq", some 0)] } =
      (Except.ok (), { schemaMeta := some [("schema_version", some Schema.CURRENT_VERSION),
        ("install_order_seq", some 0)] }) :=
  (apply_idempotent _).2 [("schema_version", some Schema.CURRENT_VERSION),
    ("install_order_seq", some 0)] rfl (by decide)

/-- C5 counterexample: on a store whose `schema_meta` already holds
`schema_version = CURRENT_VERSION` but no `install_order_seq` row,
`apply` returns success untouched, so success does not guarantee the
sequence-counter entry exists. -/
theorem apply_success_without_seq_row :
    Schema.apply { schemaMeta := some [("schema_version", some 1)] }
        = (Except.ok (), { schemaMeta := some [("schema_version", some 1)] })
      ∧ Schema.metaValue { schemaMeta := some [("schema_version", some 1)] }
          "install_order_seq" = none :=
  ⟨rfl, rfl⟩

/-- C5 (amended): for every store whose `schema_meta` holds no
`schema_version` row — in particular every fresh store — `apply`
succeeds, the stored `schema_version` afterwards equals
`CURRENT_VERSION`, and the `install_order_seq` entry exists, seeded to
0 when it was newly created. -/
theorem apply_seeds_meta (s : Schema.Store)
    (h : Schema.metaValue s "schema_version" = none) :
    (Schema.apply s).1 = Except.ok ()
      ∧ Schema.metaValue (Schema.apply s).2 "schema_version"
          = some (some Schema.CURRENT_VERSION)
      ∧ (Schema.metaValue (Schema.apply s).2 "install_order_seq").isSome = true
      ∧ (Schema.metaValue s "install_order_seq" = none →
          Schema.metaValue (Schema.apply s).2 "install_order_seq" = some (some 0)) := by
  have hsv : (s.schemaMeta.getD []).lookup "schema_version" = none := by
    unfold Schema.metaValue at h
    cases hm : s.schemaMeta with
    | none => rfl
    | some rows => rw [hm] at h; simpa using h
  have hrv : Schema.read_version s = 0 := by
    cases hm : s.schemaMeta with
    | none => unfold Schema.read_version; rw [hm]
    | some rows =>
      rw [hm] at hsv
      simp only [Option.getD_some] at hsv
      rw [Schema.read_version_eq s rows hm, hsv]
  have hlt : Schema.read_version s < Schema.CURRENT_VERSION := by
    rw [hrv]; decide
  rw [Schema.apply_of_read_version_lt s hlt]
  have hmeta := Schema.migrated_schemaMeta s
  refine ⟨rfl, ?_, ?_, ?_⟩
  · rw [Schema.metaValue_eq _ _ hmeta, Schema.seed_lookup_version, hsv]
    rfl
  · rw [Schema.metaValue_eq _ _ hmeta, Schema.seed_lookup_seq]
    rfl
  · intro hios
    have hios' : (s.schemaMeta.getD []).lookup "install_order_seq" = none := by
      unfold Schema.metaValue at hios
      cases hm : s.schemaMeta with
      | none => rfl
      | some rows => rw [hm] at hios; simpa using hios
    rw [Schema.metaValue_eq _ _ hmeta, Schema.seed_lookup_seq, hios']
    rfl

/-- Witness for the amended C5 at the fresh store (no `schema_meta`
table). -/
theorem apply_seeds_meta_witness :
    (Schema.apply {}).1 = Except.ok ()
      ∧ Schema.metaValue (Schema.apply {}).2 "schema_version"
          = some (some Schema.CURRENT_VERSION)
      ∧ (Schema.metaValue (Schema.apply {}).2 "install_order_seq").isSome = true
      ∧ (Schema.metaValue {} "install_order_seq" = none →
          Schema.metaValue (Schema.apply {}).2 "install_order_seq" = some (some 0)) :=
  apply_seeds_meta {} rfl

/-- C10 counterexample: when the `schema_version` row exists but its
`int_value` is unreadable (NULL), `read_version` returns 0 and `apply`
re-runs the guarded DDL and seed and succeeds, but `INSERT OR IGNORE`
leaves the unreadable row in place, so the stored `schema_version`
does not end up equal to `CURRENT_VERSION`. -/
theorem apply_null_version_row :
    Schema.read_version { schemaMeta := some [("schema_version", (none : Option Int))] } = 0
      ∧ (Schema.apply { schemaMeta := some [("schema_version", (none : Option Int))] }).1
          = Except.ok ()
      ∧ Schema.metaValue
          (Schema.apply { schemaMeta := some [("schema_version", (none : Option Int))] }).2
          "schema_version" = some none
      ∧ Schema.metaValue
          (Schema.apply { schemaMeta := some [("schema_version", (none : Option Int))] }).2
          "schema_version" ≠ some (some Schema.CURRENT_VERSION) :=
  ⟨rfl, rfl, rfl, by decide⟩

/-- C10 (amended): when the `schema_meta` table exists but holds no
`schema_version` row, `read_version` returns 0, `apply` treats the
store as fresh, re-runs the guarded DDL and seed and succeeds, and the
stored `schema_version` afterwards equals `CURRENT_VERSION`.  (When
the row exists with an unreadable `int_value`, `read_version` still
returns 0 and `apply` still succeeds, but the insert-or-ignore seed
leaves the unreadable value in place.) -/
theorem apply_missing_version_row_as_fresh (s : Schema.Store)
    (rows : List (String × Option Int))
    (hMeta : s.schemaMeta = some rows)
    (hRow : rows.lookup "schema_version" = none) :
    Schema.read_version s = 0
      ∧ (Schema.apply s).1 = Except.ok ()
      ∧ (Schema.apply s).2.modsTable = true
      ∧ (Schema.apply s).2.fileOwnersTable = true
      ∧ (Schema.apply s).2.iniEditsTable = true
      ∧ (Schema.apply s).2.gsvEditsTable = true
      ∧ Schema.metaValue (Schema.apply s).2 "schema_version"
          = some (some Schema.CURRENT_VERSION) := by
  have hsv : (s.schemaMeta.getD []).lookup "schema_version" = none := by
    rw [hMeta]
    simpa using hRow
  have hrv : Schema.read_version s = 0 := by
    rw [Schema.read_version_eq s rows hMeta, hRow]
  have hlt : Schema.read_version s < Schema.CURRENT_VERSION := by
    rw [hrv]; decide
  rw [Schema.apply_of_read_version_lt s hlt]
  refine ⟨hrv, rfl, rfl, rfl, rfl, rfl, ?_⟩
  rw [Schema.metaValue_eq _ _ (Schema.migrated_schemaMeta s), Schema.seed_lookup_version, hsv]
  rfl

/-- Witness for the amended C10 at a store with an empty `schema_meta`
table (the crash-after-DDL retry state). -/
theorem apply_missing_version_row_as_fresh_witness :
    Schema.read_version { schemaMeta := some [] } = 0
      ∧ (Schema.apply { schemaMeta := some [] }).1 = Except.ok ()
      ∧ (Schema.apply { schemaMeta := some [] }).2.modsTable = true
      ∧ (Schema.apply { schemaMeta := some [] }).2.fileOwnersTable = true
      ∧ (Schema.apply { schemaMeta := some [] }).2.iniEditsTable = true
      ∧ (Schema.apply { schemaMeta := some [] }).2.gsvEditsTable = true
      ∧ Schema.metaValue (Schema.apply { schemaMeta := some [] }).2 "schema_version"
          = some (some Schema.CURRENT_VERSION) :=
  apply_missing_version_row_as_fresh { schemaMeta := some [] } [] rfl rfl

/-- Helper: a successful guarded insert appends the row. -/
theorem insertFileOwner_ok (db db2 : Db.DbState) (r : Db.FileOwnerRow)
    (h : Db.insertFileOwner db r = Except.ok db2) :
    db2 = { db with file_owners := db.file_owners ++ [r] }
      ∧ Db.modKeyExists db r.mod_key = true := by
  unfold Db.insertFileOwner at h
  split at h
  · exact absurd h (by simp)
  · split at h
    · exact absurd h (by simp)
    · rename_i hfk
      refine ⟨(Except.ok.injEq _ _).mp h |>.symm, ?_⟩
      cases hmk : Db.modKeyExists db r.mod_key
      · rw [hmk] at hfk; simp at hfk
      · rfl

/-- Helper: a successful guarded insert appends the row (INI case). -/
theorem insertIniEdit_ok (db db2 : Db.DbState) (r : Db.IniEditRow)
    (h : Db.insertIniEdit db r = Except.ok db2) :
    db2 = { db with ini_edits := db.ini_edits ++ [r] }
      ∧ Db.modKeyExists db r.mod_key = true := by
  unfold Db.insertIniEdit at h
  split at h
  · exact absurd h (by simp)
  · split at h
    · exact absurd h (by simp)
    · rename_i hfk
      refine ⟨(Except.ok.injEq _ _).mp h |>.symm, ?_⟩
      cases hmk : Db.modKeyExists db r.mod_key
      · rw [hmk] at hfk; simp at hfk
      · rfl

/-- Helper: a successful guarded insert appends the row (GSV case). -/
theorem insertGsvEdit_ok (db db2 : Db.DbState) (r : Db.GsvEditRow)
    (h : Db.insertGsvEdit db r = Except.ok db2) :
    db2 = { db with gsv_edits := db.gsv_edits ++ [r] }
      ∧ Db.modKeyExists db r.mod_key = true := by
  unfold Db.insertGsvEdit at h
  split at h
  · exact absurd h (by simp)
  · split at h
    · exact absurd h (by simp)
    · rename_i hfk
      refine ⟨(Except.ok.injEq _ _).mp h |>.symm, ?_⟩
      cases hmk : Db.modKeyExists db r.mod_key
      · rw [hmk] at hfk; simp at hfk
      · rfl

/-- Helper: an existing `mod_key` reference, as a witness row. -/
theorem modKeyExists_spec (db : Db.DbState) (k : String)
    (h : Db.modKeyExists db k = true) :
    ∃ m ∈ db.mods, m.mod_key = k := by
  unfold Db.modKeyExists at h
  obtain ⟨m, hmem, hbeq⟩ := List.any_eq_true.mp h
  exact ⟨m, hmem, eq_of_beq hbeq⟩

/-- C6: the foreign-key invariant of `DDL_V1` — every ownership record
in the `file_owners`, `ini_edits` and `gsv_edits` tables references a
`mod_key` present in `mods` — is preserved by every insert the schema
accepts, and deleting a mod removes, in the same statement, every
ownership record owned by that key across all three tables while
keeping the invariant. -/
theorem ddl_foreign_keys (db : Db.DbState) (h : Db.fkOk db) :
    (∀ r db2, Db.insertFileOwner db r = Except.ok db2 → Db.fkOk db2)
      ∧ (∀ r db2, Db.insertIniEdit db r = Except.ok db2 → Db.fkOk db2)
      ∧ (∀ r db2, Db.insertGsvEdit db r = Except.ok db2 → Db.fkOk db2)
      ∧ (∀ m db2, Db.insertMod db m = Except.ok db2 → Db.fkOk db2)
      ∧ (∀ k, Db.fkOk (Db.deleteMod db k)
          ∧ (∀ r ∈ (Db.deleteMod db k).file_owners, r.mod_key ≠ k)
          ∧ (∀ r ∈ (Db.deleteMod db k).ini_edits, r.mod_key ≠ k)
          ∧ (∀ r ∈ (Db.deleteMod db k).gsv_edits, r.mod_key ≠ k)) := by
  obtain ⟨hfile, hini, hgsv⟩ := h
  refine ⟨?_, ?_, ?_, ?_, ?_⟩
  · intro r db2 hok
    obtain ⟨hdb2, hfk⟩ := insertFileOwner_ok db db2 r hok
    subst hdb2
    refine ⟨?_, hini, hgsv⟩
    intro r' hr'
    rcases List.mem_append.mp hr' with hold | hnew
    · exact hfile r' hold
    · rw [List.mem_singleton.mp hnew]
      exact modKeyExists_spec db r.mod_key hfk
  · intro r db2 hok
    obtain ⟨hdb2, hfk⟩ := insertIniEdit_ok db db2 r hok
    subst hdb2
    refine ⟨hfile, ?_, hgsv⟩
    intro r' hr'
    rcases List.mem_append.mp hr' with hold | hnew
    · exact hini r' hold
    · rw [List.mem_singleton.mp hnew]
      exact modKeyExists_spec db r.mod_key hfk
  · intro r db2 hok
    obtain ⟨hdb2, hfk⟩ := insertGsvEdit_ok db db2 r hok
    subst hdb2
    refine ⟨hfile, hini, ?_⟩
    intro r' hr'
    rcases List.mem_append.mp hr' with hold | hnew
    · exact hgsv r' hold
    · rw [List.mem_singleton.mp hnew]
      exact modKeyExists_spec db r.mod_key hfk
  · intro m db2 hok
    unfold Db.insertMod at hok
    split at hok
    · exact absurd hok (by simp)
    · rw [← (Except.ok.injEq _ _).mp hok]
      refine ⟨?_, ?_, ?_⟩ <;> intro r' hr'
      · obtain ⟨mw, hmw, hkey⟩ := hfile r' hr'
        exact ⟨mw, List.mem_append_left _ hmw, hkey⟩
      · obtain ⟨mw, hmw, hkey⟩ := hini r' hr'
        exact ⟨mw, List.mem_append_left _ hmw, hkey⟩
      · obtain ⟨mw, hmw, hkey⟩ := hgsv r' hr'
        exact ⟨mw, List.mem_append_left _ hmw, hkey⟩
  · intro k
    have survive : ∀ {r : Db.ModRow}, r ∈ db.mods → r.mod_key ≠ k →
        r ∈ (Db.deleteMod db k).mods := by
      intro r hr hne
      unfold Db.deleteMod
      simp only [List.mem_filter]
      exact ⟨hr, by simpa using hne⟩
    refine ⟨⟨?_, ?_, ?_⟩, ?_, ?_, ?_⟩
    · intro r hr
      obtain ⟨hrold, hrne⟩ := List.mem_filter.mp hr
      obtain ⟨mw, hmw, hkey⟩ := hfile r hrold
      have hne : r.mod_key ≠ k := by simpa using hrne
      exact ⟨mw, survive hmw (hkey ▸ hne), hkey⟩
    · intro r hr
      obtain ⟨hrold, hrne⟩ := List.mem_filter.mp hr
      obtain ⟨mw, hmw, hkey⟩ := hini r hrold
      have hne : r.mod_key ≠ k := by simpa using hrne
      exact ⟨mw, survive hmw (hkey ▸ hne), hkey⟩
    · intro r hr
      obtain ⟨hrold, hrne⟩ := List.mem_filter.mp hr
      obtain ⟨mw, hmw, hkey⟩ := hgsv r hrold
      have hne : r.mod_key ≠ k := by simpa using hrne
      exact ⟨mw, survive hmw (hkey ▸ hne), hkey⟩
    · intro r hr
      have := (List.mem_filter.mp hr).2
      simpa using this
    · intro r hr
      have := (List.mem_filter.mp hr).2
      simpa using this
    · intro r hr
      have := (List.mem_filter.mp hr).2
      simpa using this

/-- The database of the repository's test `cascade_delete_file_owners`:
one mod owning one file. -/
def cascadeDb : Db.DbState :=
  { mods := [{ mod_key := "mod1", archive_path := "a.7z", name := "A" }]
    file_owners := [{ file_path := "Data/t.dds", mod_key := "mod1", install_order := 1 }] }

/-- Witness for C6: deleting the mod of `cascadeDb` keeps the
foreign-key invariant and leaves no ownership row for it. -/
theorem ddl_foreign_keys_witness :
    Db.fkOk (Db.deleteMod cascadeDb "mod1")
      ∧ ∀ r ∈ (Db.deleteMod cascadeDb "mod1").file_owners, r.mod_key ≠ "mod1" :=
  ⟨((ddl_foreign_keys cascadeDb (by decide)).2.2.2.2 "mod1").1,
    ((ddl_foreign_keys cascadeDb (by decide)).2.2.2.2 "mod1").2.1⟩

/-- Registering mods `a` then `b` and recording their claims on file
`p`, in that order, starting from the empty ledger. -/
def stackTwoOwners (a b p : String) : Except Ledger.LedgerError Ledger.LedgerState :=
  match Ledger.add_mod {} a with
  | Except.error err => Except.error err
  | Except.ok s1 =>
    match Ledger.add_mod s1 b with
    | Except.error err => Except.error err
    | Except.ok s2 =>
      match Ledger.add_data_file s2 a p with
      | Except.error err => Except.error err
      | Except.ok s3 => Ledger.add_data_file s3 b p

/-- C1: for every file path, after registering mods `a` and `b` and
recording claims on the same file first by `a` then by `b` (so `b`
gets the higher sequence), the current owner is `b` and the previous
owner is `a`; removing `b`'s claim reverts the current owner to `a`,
and removing `a`'s claim, leaving the file unclaimed, yields no
current owner. -/
theorem ownership_stack_file (a b p : String) (hab : a ≠ b) :
    ∃ s4, stackTwoOwners a b p = Except.ok s4
      ∧ Ledger.get_current_file_owner s4 p = some b
      ∧ Ledger.get_previous_file_owner s4 p = some a
      ∧ ∃ s5, Ledger.remove_data_file s4 b p = Except.ok s5
          ∧ Ledger.get_current_file_owner s5 p = some a
          ∧ ∃ s6, Ledger.remove_data_file s5 a p = Except.ok s6
              ∧ Ledger.get_current_file_owner s6 p = none := by
  have hba : b ≠ a := Ne.symm hab
  have hpp : eqIgnoreAsciiCase p p = true := by simp [eqIgnoreAsciiCase]
  refine ⟨{ mods := [a, b], fileClaims := [⟨p, a, 1⟩, ⟨p, b, 2⟩], seqCounter := 2 },
    ?_, ?_, ?_,
    { mods := [a, b], fileClaims := [⟨p, a, 1⟩], seqCounter := 2 }, ?_, ?_,
    { mods := [a, b], fileClaims := [], seqCounter := 2 }, ?_, ?_⟩
  · simp [stackTwoOwners, Ledger.add_mod, Ledger.add_data_file, Ledger.hasFileClaim,
      hab, hba, hpp]
  · simp [Ledger.get_current_file_owner, Ledger.claimsOn, Ledger.sortDesc,
      Ledger.insertDesc, hpp]
  · simp [Ledger.get_previous_file_owner, Ledger.claimsOn, Ledger.sortDesc,
      Ledger.insertDesc, hpp]
  · simp [Ledger.remove_data_file, Ledger.hasFileClaim, hab, hba, hpp]
  · simp [Ledger.get_current_file_owner, Ledger.claimsOn, Ledger.sortDesc,
      Ledger.insertDesc, hpp]
  · simp [Ledger.remove_data_file, Ledger.hasFileClaim, hab, hba, hpp]
  · simp [Ledger.get_current_file_owner, Ledger.claimsOn, Ledger.sortDesc]

/-- Witness for C1 at the mods and path of the repository's test
`multiple_mods_can_own_same_file`. -/
theorem ownership_stack_file_witness :
    ∃ s4, stackTwoOwners "mod1" "mod2" "Data/test.dds" = Except.ok s4
      ∧ Ledger.get_current_file_owner s4 "Data/test.dds" = some "mod2"
      ∧ Ledger.get_previous_file_owner s4 "Data/test.dds" = some "mod1"
      ∧ ∃ s5, Ledger.remove_data_file s4 "mod2" "Data/test.dds" = Except.ok s5
          ∧ Ledger.get_current_file_owner s5 "Data/test.dds" = some "mod1"
          ∧ ∃ s6, Ledger.remove_data_file s5 "mod1" "Data/test.dds" = Except.ok s6
              ∧ Ledger.get_current_file_owner s6 "Data/test.dds" = none :=
  ownership_stack_file "mod1" "mod2" "Data/test.dds" (by decide)

/-- C2: each `log_original_*` operation inserts an ownership claim
owned by the sentinel `ORIGINAL_VALUES_KEY` and succeeds even though
the sentinel is not registered as a mod, leaving the mod registry
untouched. -/
theorem log_original_unregistered (s : Ledger.LedgerState) (p g : String)
    (e : IniEdit) (v : String) (bv : List Nat)
    (hm : s.mods.contains ORIGINAL_VALUES_KEY = false)
    (hf : Ledger.hasFileClaim s p ORIGINAL_VALUES_KEY = false)
    (hi : Ledger.hasIniClaim s e ORIGINAL_VALUES_KEY = false)
    (hg : Ledger.hasGsvClaim s g ORIGINAL_VALUES_KEY = false) :
    (∃ s2, Ledger.log_original_data_file s p = Except.ok s2
        ∧ (∃ c ∈ s2.fileClaims, c.file_path = p ∧ c.mod_key = ORIGINAL_VALUES_KEY)
        ∧ s2.mods = s.mods)
      ∧ (∃ s2, Ledger.log_original_ini_value s e v = Except.ok s2
          ∧ (∃ c ∈ s2.iniClaims, c.edit = e ∧ c.mod_key = ORIGINAL_VALUES_KEY)
          ∧ s2.mods = s.mods)
      ∧ (∃ s2, Ledger.log_original_gsv_value s g bv = Except.ok s2
          ∧ (∃ c ∈ s2.gsvClaims, c.gsv_key = g ∧ c.mod_key = ORIGINAL_VALUES_KEY)
          ∧ s2.mods = s.mods) := by
  refine ⟨⟨{ s with
        fileClaims := s.fileClaims ++ [⟨p, ORIGINAL_VALUES_KEY, s.seqCounter + 1⟩]
        seqCounter := s.seqCounter + 1 },
      ?_, ⟨⟨p, ORIGINAL_VALUES_KEY, s.seqCounter + 1⟩, ?_, rfl, rfl⟩, rfl⟩,
    ⟨{ s with
        iniClaims := s.iniClaims ++ [⟨e, ORIGINAL_VALUES_KEY, v, s.seqCounter + 1⟩]
        seqCounter := s.seqCounter + 1 },
      ?_, ⟨⟨e, ORIGINAL_VALUES_KEY, v, s.seqCounter + 1⟩, ?_, rfl, rfl⟩, rfl⟩,
    ⟨{ s with
        gsvClaims := s.gsvClaims ++ [⟨g, ORIGINAL_VALUES_KEY, bv, s.seqCounter + 1⟩]
        seqCounter := s.seqCounter + 1 },
      ?_, ⟨⟨g, ORIGINAL_VALUES_KEY, bv, s.seqCounter + 1⟩, ?_, rfl, rfl⟩, rfl⟩⟩
  · simp [Ledger.log_original_data_file, hf]
  · exact List.mem_append_right _ (List.mem_singleton.mpr rfl)
  · simp [Ledger.log_original_ini_value, hi]
  · exact List.mem_append_right _ (List.mem_singleton.mpr rfl)
  · simp [Ledger.log_original_gsv_value, hg]
  · exact List.mem_append_right _ (List.mem_singleton.mpr rfl)

/-- Witness for C2 at the empty ledger (no mods registered at all, in
particular not the sentinel). -/
theorem log_original_unregistered_witness :
    ∃ s2, Ledger.log_original_data_file {} "Data/test.dds" = Except.ok s2
      ∧ (∃ c ∈ s2.fileClaims, c.file_path = "Data/test.dds"
          ∧ c.mod_key = ORIGINAL_VALUES_KEY)
      ∧ s2.mods = ({} : Ledger.LedgerState).mods :=
  (log_original_unregistered {} "Data/test.dds" "bInvalidateOlderFiles"
      ⟨"Skyrim.ini", "Display", "bFullScreen"⟩ "1" [255]
      rfl rfl rfl rfl).1

end NmmRust
